import Mathlib

set_option maxRecDepth 100000

/-!
Shallow embedding of the chess rules engine (repository file exporting
createInitialSnapshot, makeMove, legalMovesForSquare, etc.) together with
theorems settling the frozen claims about it.  Definitions mirror the
source functions one-for-one; TypeScript numbers used as board indices
become Int, arrays become lists, and JavaScript runtime values flowing
into the serialization bridge become the inductive JVal.
-/

/-- Piece color, source type Color = "w" | "b". -/
inductive Color where
  | w
  | b
deriving DecidableEq, Repr

/-- Piece kind, source type PieceType = "p" | "r" | "n" | "b" | "q" | "k". -/
inductive PieceType where
  | p
  | r
  | n
  | b
  | q
  | k
deriving DecidableEq, Repr

/-- Source type Piece = { c: Color; t: PieceType }. -/
structure Piece where
  c : Color
  t : PieceType
deriving DecidableEq, Repr

/-- Source type Board = (Piece | null)[][]. -/
abbrev Board := List (List (Option Piece))

/-- Source type Coord = { r: number; c: number }. -/
structure Coord where
  r : Int
  c : Int
deriving DecidableEq, Repr

/-- Source type GameStatus. -/
inductive GameStatus where
  | playing
  | checkmate
  | stalemate
  | draw
deriving DecidableEq, Repr

/-- Source type CastlingRights. -/
structure CastlingRights where
  wk : Bool
  wq : Bool
  bk : Bool
  bq : Bool
deriving DecidableEq, Repr

/-- Castle side tag, source values "k" | "q". -/
inductive CastleSide where
  | k
  | q
deriving DecidableEq, Repr

/-- Source type MoveRecord. -/
structure MoveRecord where
  fromSq : String
  toSq : String
  turn : Color
  piece : String
  captured : Option String
  promotion : Option PieceType
  castle : Option CastleSide
  enPassant : Bool
deriving DecidableEq, Repr

/-- Source type Snapshot. -/
structure Snapshot where
  board : Board
  turn : Color
  status : GameStatus
  winner : Option Color
  resultReason : Option String
  history : List MoveRecord
  last : Option (String × String)
  castling : CastlingRights
  enPassant : Option String
  halfmoveClock : Int
  fullmoveNumber : Int
  positionKeys : List String
deriving DecidableEq, Repr

/-- Source type Move. -/
structure Move where
  fromSq : Coord
  toSq : Coord
  promotion : Option PieceType := none
  castle : Option CastleSide := none
  enPassant : Bool := false
deriving DecidableEq, Repr

/-- Source constant FILES = "abcdefgh". -/
def files : List Char := ['a', 'b', 'c', 'd', 'e', 'f', 'g', 'h']

/-- Source constant KNIGHT: the 8 knight offsets. -/
def KNIGHT : List (Int × Int) :=
  [(-2, -1), (-2, 1), (-1, -2), (-1, 2), (1, -2), (1, 2), (2, -1), (2, 1)]

/-- Source constant ROOK_DIRS. -/
def ROOK_DIRS : List (Int × Int) := [(1, 0), (-1, 0), (0, 1), (0, -1)]

/-- Source constant BISHOP_DIRS. -/
def BISHOP_DIRS : List (Int × Int) := [(1, 1), (1, -1), (-1, 1), (-1, -1)]

/-- Source constant QUEEN_DIRS = ROOK_DIRS ++ BISHOP_DIRS. -/
def QUEEN_DIRS : List (Int × Int) := ROOK_DIRS ++ BISHOP_DIRS

/-- Source sqName: algebraic name of a square. -/
def sqName (r c : Int) : String :=
  String.singleton (files.getD c.toNat 'x') ++ toString (8 - r)

/-- Source parseSquare: parse an algebraic square name, nothing on mismatch. -/
def parseSquare (s : String) : Option Coord :=
  match s.toList with
  | [f, d] =>
    if 'a' ≤ f ∧ f ≤ 'h' ∧ '1' ≤ d ∧ d ≤ '8' then
      some ⟨8 - ((d.toNat : Int) - 48), (f.toNat : Int) - 97⟩
    else none
  | _ => none

/-- Source opposite. -/
def opposite (c : Color) : Color :=
  match c with
  | .w => .b
  | .b => .w

/-- Source inb: board-bounds test. -/
def inb (r c : Int) : Bool :=
  decide (0 ≤ r ∧ r < 8 ∧ 0 ≤ c ∧ c < 8)

/-- Two-character color string. -/
def colorStr (c : Color) : String :=
  match c with
  | .w => "w"
  | .b => "b"

/-- One-character piece-type string. -/
def typeStr (t : PieceType) : String :=
  match t with
  | .p => "p"
  | .r => "r"
  | .n => "n"
  | .b => "b"
  | .q => "q"
  | .k => "k"

/-- Source code(p): two-character color+type code of an optional piece. -/
def code (p : Option Piece) : Option String :=
  p.map fun q => colorStr q.c ++ typeStr q.t

/-- Board read board[r][c]; out-of-range reads give no piece (in-range in all
engine paths, which guard indices with inb). -/
def getP (b : Board) (r c : Int) : Option Piece :=
  if inb r c then (((b.get? r.toNat).getD []).get? c.toNat).getD none else none

/-- Board write board[r][c] = v; out-of-range writes leave the board unchanged. -/
def setP (b : Board) (r c : Int) (v : Option Piece) : Board :=
  if inb r c then b.set r.toNat (((b.get? r.toNat).getD []).set c.toNat v) else b

/-- Back rank of source initialBoard. -/
def backRow (cl : Color) : List (Option Piece) :=
  [some ⟨cl, .r⟩, some ⟨cl, .n⟩, some ⟨cl, .b⟩, some ⟨cl, .q⟩,
   some ⟨cl, .k⟩, some ⟨cl, .b⟩, some ⟨cl, .n⟩, some ⟨cl, .r⟩]

/-- Pawn rank of source initialBoard. -/
def pawnRow (cl : Color) : List (Option Piece) :=
  List.replicate 8 (some ⟨cl, .p⟩)

/-- Empty rank. -/
def emptyRow : List (Option Piece) := List.replicate 8 none

/-- Source initialBoard: standard starting position. -/
def initialBoard : Board :=
  [backRow .b, pawnRow .b, emptyRow, emptyRow, emptyRow, emptyRow, pawnRow .w, backRow .w]

/-- Source initialCastling. -/
def initialCastling : CastlingRights :=
  ⟨true, true, true, true⟩

/-- Source boardKey: rows of cell codes (empty = "--") joined by "/". -/
def boardKey (board : Board) : String :=
  String.intercalate "/" (board.map fun row => String.join (row.map fun p => (code p).getD "--"))

/-- Source positionKey: board layout, side to move, castling string, en-passant square. -/
def positionKey (board : Board) (turn : Color) (castling : CastlingRights) (enPassant : Option String) : String :=
  let castle :=
    (if castling.wk then "K" else "") ++ (if castling.wq then "Q" else "") ++
      (if castling.bk then "k" else "") ++ (if castling.bq then "q" else "")
  let castle := if castle = "" then "-" else castle
  boardKey board ++ "|" ++ colorStr turn ++ "|" ++ castle ++ "|" ++ enPassant.getD "-"

/-- Source createInitialSnapshot. -/
def createInitialSnapshot : Snapshot :=
  let board := initialBoard
  let castling := initialCastling
  let key := positionKey board .w castling none
  { board := board
    turn := .w
    status := .playing
    winner := none
    resultReason := none
    history := []
    last := none
    castling := castling
    enPassant := none
    halfmoveClock := 0
    fullmoveNumber := 1
    positionKeys := [key] }

/-- Source encodeBoard: grid of optional two-character codes. -/
def encodeBoard (board : Board) : List (List (Option String)) :=
  board.map fun row => row.map fun p => code p

/-- JavaScript numbers reaching the serialization bridge: finite values are
modelled as rationals, the non-finite values are kept abstract. -/
inductive JNum where
  | finite (q : ℚ)
  | nan
  | inf
  | neginf

/-- JavaScript runtime values reaching the serialization bridge (null also
stands for undefined, which the source treats identically via == null and
typeof checks). -/
inductive JVal where
  | null
  | bool (b : Bool)
  | num (n : JNum)
  | str (s : String)
  | arr (xs : List JVal)
  | obj (fields : List (String × JVal))

/-- Regex test ^[wb][prnbqk]$ plus the cast in source decodeBoard. -/
def parsePieceCode (s : String) : Option Piece :=
  match s.toList with
  | [c0, c1] =>
    match
      (match c0 with
       | 'w' => some Color.w
       | 'b' => some Color.b
       | _ => none),
      (match c1 with
       | 'p' => some PieceType.p
       | 'r' => some PieceType.r
       | 'n' => some PieceType.n
       | 'b' => some PieceType.b
       | 'q' => some PieceType.q
       | 'k' => some PieceType.k
       | _ => none) with
    | some cl, some t => some ⟨cl, t⟩
    | _, _ => none
  | _ => none

/-- One cell of source decodeBoard: null/undefined is an empty cell, a valid
code string is a piece, anything else triggers the wholesale fallback. -/
def decodeCell (v : JVal) : Option (Option Piece) :=
  match v with
  | .null => some none
  | .str s =>
    match parsePieceCode s with
    | some pc => some (some pc)
    | none => none
  | _ => none

/-- Inner loop of source decodeBoard over one row's cells. -/
def decodeCells : List JVal → Option (List (Option Piece))
  | [] => some []
  | v :: vs =>
    match decodeCell v with
    | none => none
    | some cell =>
      match decodeCells vs with
      | none => none
      | some rest => some (cell :: rest)

/-- Row check of source decodeBoard: must be an array of exactly 8 cells. -/
def decodeRow (v : JVal) : Option (List (Option Piece)) :=
  match v with
  | .arr cells => if cells.length = 8 then decodeCells cells else none
  | _ => none

/-- Outer loop of source decodeBoard over the rows. -/
def decodeRows : List JVal → Option Board
  | [] => some []
  | r :: rs =>
    match decodeRow r with
    | none => none
    | some row =>
      match decodeRows rs with
      | none => none
      | some rest => some (row :: rest)

/-- Source decodeBoard: an 8×8 grid of valid cells decodes exactly; any
shape or cell failure falls back wholesale to the initial board. -/
def decodeBoard (v : JVal) : Board :=
  match v with
  | .arr rows =>
    if rows.length = 8 then
      match decodeRows rows with
      | some b => b
      | none => initialBoard
    else initialBoard
  | _ => initialBoard

/-- Source findKing: first square holding the given color's king, scanning
rank-major like the source loops. -/
def findKing (board : Board) (color : Color) : Option Coord :=
  (List.range 8).findSome? fun r =>
    (List.range 8).findSome? fun c =>
      match getP board (r : Int) (c : Int) with
      | some pc => if pc.c = color ∧ pc.t = .k then some ⟨(r : Int), (c : Int)⟩ else none
      | none => none

/-- Ray walk of source isSquareAttacked for the sliding families: stops at the
first occupied square, which attacks iff it holds by-colored t1 or a queen.
The fuel 8 bounds the while loop, which leaves the board within 8 steps. -/
def rayHit (board : Board) (byC : Color) (t1 : PieceType) : Int → Int → Int → Int → Nat → Bool
  | _, _, _, _, 0 => false
  | r, c, dr, dc, fuel + 1 =>
    if inb r c then
      match getP board r c with
      | some pc => pc.c = byC ∧ (pc.t = t1 ∨ pc.t = .q)
      | none => rayHit board byC t1 (r + dr) (c + dc) dr dc fuel
    else false

/-- Source isSquareAttacked: pawn, knight, sliding and king attacks on a square. -/
def isSquareAttacked (board : Board) (tr tc : Int) (by' : Color) : Bool :=
  let pd : Int := if by' = .w then -1 else 1
  (([-1, 1] : List Int).any fun dc =>
    let r := tr - pd
    let c := tc - dc
    inb r c && match getP board r c with
      | some pc => pc.c = by' ∧ pc.t = .p
      | none => false) ||
  (KNIGHT.any fun d =>
    let r := tr + d.1
    let c := tc + d.2
    inb r c && match getP board r c with
      | some pc => pc.c = by' ∧ pc.t = .n
      | none => false) ||
  (ROOK_DIRS.any fun d => rayHit board by' .r (tr + d.1) (tc + d.2) d.1 d.2 8) ||
  (BISHOP_DIRS.any fun d => rayHit board by' .b (tr + d.1) (tc + d.2) d.1 d.2 8) ||
  (([-1, 0, 1] : List Int).any fun dr =>
    ([-1, 0, 1] : List Int).any fun dc =>
      !(dr = 0 ∧ dc = 0 : Bool) &&
        (let r := tr + dr
         let c := tc + dc
         inb r c && match getP board r c with
           | some pc => pc.c = by' ∧ pc.t = .k
           | none => false))

/-- Source isInCheck: the color's king square is attacked by the opponent;
false when no king is found. -/
def isInCheck (board : Board) (color : Color) : Bool :=
  match findKing board color with
  | some k => isSquareAttacked board k.r k.c (opposite color)
  | none => false

/-- Source canCastle: rights flag, king on its home square, not in check,
rook on its corner, empty path, unattacked king path. -/
def canCastle (snapshot : Snapshot) (color : Color) (side : CastleSide) : Bool :=
  let row : Int := if color = .w then 7 else 0
  let rights := snapshot.castling
  let right :=
    match color, side with
    | .w, .k => rights.wk
    | .w, .q => rights.wq
    | .b, .k => rights.bk
    | .b, .q => rights.bq
  if !right then false
  else
    match getP snapshot.board row 4 with
    | none => false
    | some king =>
      if king.c ≠ color ∨ king.t ≠ .k then false
      else if isInCheck snapshot.board color then false
      else
        match side with
        | .k =>
          match getP snapshot.board row 7 with
          | none => false
          | some rook =>
            if rook.c ≠ color ∨ rook.t ≠ .r then false
            else if (getP snapshot.board row 5).isSome || (getP snapshot.board row 6).isSome then false
            else if isSquareAttacked snapshot.board row 5 (opposite color) then false
            else if isSquareAttacked snapshot.board row 6 (opposite color) then false
            else true
        | .q =>
          match getP snapshot.board row 0 with
          | none => false
          | some rook =>
            if rook.c ≠ color ∨ rook.t ≠ .r then false
            else if (getP snapshot.board row 1).isSome || (getP snapshot.board row 2).isSome ||
                (getP snapshot.board row 3).isSome then false
            else if isSquareAttacked snapshot.board row 3 (opposite color) then false
            else if isSquareAttacked snapshot.board row 2 (opposite color) then false
            else true

/-- The push helper of source pseudoMoves: a quiet move or capture when the
target square is in board and not own-occupied. -/
def pushTo (board : Board) (selfC : Color) (r c rr cc : Int) : List Move :=
  if inb rr cc then
    match getP board rr cc with
    | none => [{ fromSq := ⟨r, c⟩, toSq := ⟨rr, cc⟩ }]
    | some t => if t.c ≠ selfC then [{ fromSq := ⟨r, c⟩, toSq := ⟨rr, cc⟩ }] else []
  else []

/-- Sliding-ray collection of source pseudoMoves: empty squares then the
first enemy square; fuel 8 bounds the while loop. -/
def slideFrom (board : Board) (selfC : Color) (fr fc : Int) : Int → Int → Int → Int → Nat → List Move
  | _, _, _, _, 0 => []
  | r, c, dr, dc, fuel + 1 =>
    if inb r c then
      match getP board r c with
      | none => { fromSq := ⟨fr, fc⟩, toSq := ⟨r, c⟩ } :: slideFrom board selfC fr fc (r + dr) (c + dc) dr dc fuel
      | some t => if t.c ≠ selfC then [{ fromSq := ⟨fr, fc⟩, toSq := ⟨r, c⟩ }] else []
    else []

/-- Promotion variants emitted by source pseudoMoves, in source order. -/
def promoVariants (r c rr cc : Int) : List Move :=
  ([.q, .r, .b, .n] : List PieceType).map fun promotion =>
    { fromSq := ⟨r, c⟩, toSq := ⟨rr, cc⟩, promotion := some promotion }

/-- Source pseudoMoves: per-piece candidate moves from one square, ignoring
self-check, in the source's emission order. -/
def pseudoMoves (snapshot : Snapshot) (r c : Int) : List Move :=
  match getP snapshot.board r c with
  | none => []
  | some p =>
    match p.t with
    | .p =>
      let dir : Int := if p.c = .w then -1 else 1
      let start : Int := if p.c = .w then 6 else 1
      let promoRow : Int := if p.c = .w then 0 else 7
      let one := r + dir
      let pushes :=
        if inb one c ∧ getP snapshot.board one c = none then
          (if one = promoRow then promoVariants r c one c
           else [{ fromSq := ⟨r, c⟩, toSq := ⟨one, c⟩ }]) ++
          (let two := r + dir * 2
           if r = start ∧ inb two c ∧ getP snapshot.board two c = none then
             [{ fromSq := ⟨r, c⟩, toSq := ⟨two, c⟩ }]
           else [])
        else []
      let caps :=
        ([-1, 1] : List Int).flatMap fun dc =>
          let rr := r + dir
          let cc := c + dc
          if inb rr cc then
            (match getP snapshot.board rr cc with
             | some target =>
               if target.c ≠ p.c then
                 if rr = promoRow then promoVariants r c rr cc
                 else [{ fromSq := ⟨r, c⟩, toSq := ⟨rr, cc⟩ }]
               else []
             | none => []) ++
            (if snapshot.enPassant = some (sqName rr cc) then
               [{ fromSq := ⟨r, c⟩, toSq := ⟨rr, cc⟩, enPassant := true }]
             else [])
          else []
      pushes ++ caps
    | .n => KNIGHT.flatMap fun d => pushTo snapshot.board p.c r c (r + d.1) (c + d.2)
    | .k =>
      (([-1, 0, 1] : List Int).flatMap fun dr =>
        ([-1, 0, 1] : List Int).flatMap fun dc =>
          if dr ≠ 0 ∨ dc ≠ 0 then pushTo snapshot.board p.c r c (r + dr) (c + dc) else []) ++
      (if canCastle snapshot p.c .k then [{ fromSq := ⟨r, c⟩, toSq := ⟨r, 6⟩, castle := some .k }] else []) ++
      (if canCastle snapshot p.c .q then [{ fromSq := ⟨r, c⟩, toSq := ⟨r, 2⟩, castle := some .q }] else [])
    | t =>
      let dirs := match t with
        | .b => BISHOP_DIRS
        | .r => ROOK_DIRS
        | _ => QUEEN_DIRS
      dirs.flatMap fun d => slideFrom snapshot.board p.c r c (r + d.1) (c + d.2) d.1 d.2 8

/-- Result bundle of source applyMoveRaw. -/
structure RawApply where
  board : Board
  castling : CastlingRights
  enPassant : Option String
  captured : Option Piece
  moving : Piece
  placed : Piece
  halfmoveClock : Int
  fullmoveNumber : Int
  nextTurn : Color
deriving DecidableEq, Repr

/-- Castling-rights update of source applyMoveRaw (its four blocks of
single-field clearing conditionals, collected per field: a right survives
iff it held before and no clearing condition fires for it). -/
def updateCastling (cr : CastlingRights) (moving : Piece) (fromSq toSq : Coord)
    (captured : Option Piece) : CastlingRights :=
  let kingW : Bool := moving.t = .k ∧ moving.c = .w
  let kingB : Bool := moving.t = .k ∧ moving.c = .b
  let rookFrom : Int → Int → Bool := fun r c => moving.t = .r ∧ fromSq.r = r ∧ fromSq.c = c
  let capAt : Int → Int → Bool := fun r c =>
    (match captured with
     | some pc => decide (pc.t = .r)
     | none => false) && decide (toSq.r = r ∧ toSq.c = c)
  { wk := cr.wk && !(kingW || rookFrom 7 7 || capAt 7 7)
    wq := cr.wq && !(kingW || rookFrom 7 0 || capAt 7 0)
    bk := cr.bk && !(kingB || rookFrom 0 7 || capAt 0 7)
    bq := cr.bq && !(kingB || rookFrom 0 0 || capAt 0 0) }

/-- Source applyMoveRaw: board delta (en-passant removal, promotion
substitution, castling rook relocation), castling-rights update, en-passant
target, clocks and side to move. -/
def applyMoveRaw (snapshot : Snapshot) (mv : Move) : Option RawApply :=
  match getP snapshot.board mv.fromSq.r mv.fromSq.c with
  | none => none
  | some moving =>
    let b0 := setP snapshot.board mv.fromSq.r mv.fromSq.c none
    let capb :=
      if mv.enPassant then
        let capRow := mv.toSq.r + (if moving.c = .w then 1 else -1)
        (getP b0 capRow mv.toSq.c, setP b0 capRow mv.toSq.c none)
      else (getP b0 mv.toSq.r mv.toSq.c, b0)
    let captured := capb.1
    let b1 := capb.2
    let placed : Piece :=
      if moving.t = .p ∧ (mv.toSq.r = 0 ∨ mv.toSq.r = 7) then
        ⟨moving.c, mv.promotion.getD .q⟩
      else moving
    let b2 := setP b1 mv.toSq.r mv.toSq.c (some placed)
    let b3 :=
      match mv.castle with
      | some .k =>
        let row : Int := if moving.c = .w then 7 else 0
        let rook := getP b2 row 7
        setP (setP b2 row 7 none) row 5 rook
      | some .q =>
        let row : Int := if moving.c = .w then 7 else 0
        let rook := getP b2 row 0
        setP (setP b2 row 0 none) row 3 rook
      | none => b2
    let castling := updateCastling snapshot.castling moving mv.fromSq mv.toSq captured
    let enPassant :=
      if moving.t = .p ∧ (mv.toSq.r - mv.fromSq.r).natAbs = 2 then
        some (sqName ((mv.fromSq.r + mv.toSq.r) / 2) mv.fromSq.c)
      else none
    let isPawnMove := moving.t = .p
    let isCapture := captured.isSome
    let halfmoveClock : Int := if isPawnMove ∨ isCapture then 0 else snapshot.halfmoveClock + 1
    let fullmoveNumber := snapshot.fullmoveNumber + (if snapshot.turn = .b then 1 else 0)
    some ⟨b3, castling, enPassant, captured, moving, placed, halfmoveClock, fullmoveNumber,
      opposite snapshot.turn⟩

/-- Source sameMove: equality on origin, destination, promotion, castle flag
and en-passant flag. -/
def sameMove (a b : Move) : Bool :=
  a.fromSq.r = b.fromSq.r ∧ a.fromSq.c = b.fromSq.c ∧ a.toSq.r = b.toSq.r ∧ a.toSq.c = b.toSq.c ∧
    a.promotion = b.promotion ∧ a.castle = b.castle ∧ a.enPassant = b.enPassant

/-- Source legalMovesForSquare: pseudo-moves filtered by speculative apply
plus king-safety check. -/
def legalMovesForSquare (snapshot : Snapshot) (r c : Int) : List Move :=
  match getP snapshot.board r c with
  | none => []
  | some p =>
    (pseudoMoves snapshot r c).filter fun mv =>
      match applyMoveRaw snapshot mv with
      | some next => !isInCheck next.board p.c
      | none => false

/-- Source hasAnyLegalMove: some own-colored square has a legal move, using a
turn-adjusted snapshot when the queried color is not to move. -/
def hasAnyLegalMove (snapshot : Snapshot) (color : Color) : Bool :=
  let temp := if snapshot.turn = color then snapshot else { snapshot with turn := color }
  (List.range 8).any fun r =>
    (List.range 8).any fun c =>
      match getP temp.board (r : Int) (c : Int) with
      | some pc => pc.c = color && !(legalMovesForSquare temp (r : Int) (c : Int)).isEmpty
      | none => false

/-- Source insufficientMaterial: bare kings, a lone minor piece, or
same-colored single bishops on each side. -/
def insufficientMaterial (board : Board) : Bool :=
  let pieces : List (Piece × Int × Int) :=
    (List.range 8).flatMap fun r =>
      (List.range 8).flatMap fun c =>
        match getP board (r : Int) (c : Int) with
        | some pc => [(pc, (r : Int), (c : Int))]
        | none => []
  let nonKings := pieces.filter fun x => x.1.t ≠ .k
  if nonKings.length = 0 then true
  else if nonKings.length = 1 then
    match nonKings with
    | x :: _ => x.1.t = .b ∨ x.1.t = .n
    | [] => false
  else if nonKings.length = 2 ∧ nonKings.all (fun x => x.1.t = .b) then
    let wb := nonKings.filter fun x => x.1.c = .w
    let bb := nonKings.filter fun x => x.1.c = .b
    match wb, bb with
    | [x], [y] => (x.2.1 + x.2.2) % 2 = (y.2.1 + y.2.2) % 2
    | _, _ => false
  else false

/-- Source resultStatus: checkmate/stalemate, then threefold repetition,
fifty-move rule and insufficient material in that fixed priority. -/
def resultStatus (next : Snapshot) : Snapshot :=
  if next.status ≠ .playing then next
  else
    let hasMoves := hasAnyLegalMove next next.turn
    let check := isInCheck next.board next.turn
    if !hasMoves then
      if check then
        { next with status := .checkmate, winner := some (opposite next.turn), resultReason := some "checkmate" }
      else
        { next with status := .stalemate, winner := none, resultReason := some "stalemate" }
    else
      let currentKey := positionKey next.board next.turn next.castling next.enPassant
      let repetitions := (next.positionKeys.filter fun k => k = currentKey).length
      if 3 ≤ repetitions then
        { next with status := .draw, winner := none, resultReason := some "threefold repetition" }
      else if 100 ≤ next.halfmoveClock then
        { next with status := .draw, winner := none, resultReason := some "fifty-move rule" }
      else if insufficientMaterial next.board then
        { next with status := .draw, winner := none, resultReason := some "insufficient material" }
      else next

/-- Candidate selection of source makeMove: exact match against the desired
move, else the destination-only fallback with its promotion handling. -/
def chooseCandidate (legal : List Move) (f t : Coord) (promotion : Option PieceType) : Option Move :=
  let desired : Move := { fromSq := f, toSq := t, promotion := promotion }
  match legal.find? fun mv => sameMove mv desired with
  | some m => some m
  | none =>
    let candidates := legal.filter fun mv => mv.toSq.r = t.r ∧ mv.toSq.c = t.c
    match promotion with
    | some pr => candidates.find? fun mv => mv.promotion = some pr
    | none =>
      if candidates.length = 1 then candidates.head?
      else candidates.find? fun mv => mv.promotion = none

/-- Snapshot built by source makeMove before the status evaluator runs. -/
def nextSnapshot (s : Snapshot) (f t : Coord) (moving : Piece) (chosen : Move)
    (raw : RawApply) : Snapshot :=
  let moveRec : MoveRecord :=
    { fromSq := sqName f.r f.c
      toSq := sqName t.r t.c
      turn := moving.c
      piece := (code (some moving)).getD ""
      captured := code raw.captured
      promotion := chosen.promotion
      castle := chosen.castle
      enPassant := chosen.enPassant }
  let nextKey := positionKey raw.board raw.nextTurn raw.castling raw.enPassant
  { board := raw.board
    turn := raw.nextTurn
    status := .playing
    winner := none
    resultReason := none
    history := s.history ++ [moveRec]
    last := some (moveRec.fromSq, moveRec.toSq)
    castling := raw.castling
    enPassant := raw.enPassant
    halfmoveClock := raw.halfmoveClock
    fullmoveNumber := raw.fullmoveNumber
    positionKeys := s.positionKeys ++ [nextKey] }

/-- Source makeMove: submission guards, candidate choice, raw application,
defensive self-check re-verification, then the status evaluator. -/
def makeMove (s : Snapshot) (f t : Coord) (promotion : Option PieceType) : Option Snapshot :=
  if s.status ≠ .playing then none
  else
    match getP s.board f.r f.c with
    | none => none
    | some moving =>
      if moving.c ≠ s.turn then none
      else
        match chooseCandidate (legalMovesForSquare s f.r f.c) f t promotion with
        | none => none
        | some chosen =>
          match applyMoveRaw s chosen with
          | none => none
          | some raw =>
            if isInCheck raw.board moving.c then none
            else some (resultStatus (nextSnapshot s f t moving chosen raw))

/-- First-occurrence deduplication, the Set spread of source
legalTargetSquares. -/
def setDedup : List String → List String → List String
  | [], _ => []
  | x :: xs, seen => if x ∈ seen then setDedup xs seen else x :: setDedup xs (x :: seen)

/-- Source legalTargetSquares: deduplicated destination names of the legal
moves from a square. -/
def legalTargetSquares (snapshot : Snapshot) (r c : Int) : List String :=
  setDedup ((legalMovesForSquare snapshot r c).map fun m => sqName m.toSq.r m.toSq.c) []

/-- Sequencing of accepted move submissions, for irreversibility statements. -/
def applyMoves (s : Snapshot) : List (Coord × Coord × Option PieceType) → Option Snapshot
  | [] => some s
  | (f, t, pr) :: rest =>
    match makeMove s f t pr with
    | none => none
    | some s1 => applyMoves s1 rest

/-- JavaScript truthiness of a runtime value, as used by the double-negation
coercions in the serialization bridge. -/
def jsTruthy (v : JVal) : Bool :=
  match v with
  | .null => false
  | .bool b => b
  | .num (.finite q) => decide (q ≠ 0)
  | .num .nan => false
  | .num .inf => true
  | .num .neginf => true
  | .str s => decide (s ≠ "")
  | .arr _ => true
  | .obj _ => true

/-- Property read on a JavaScript value: only plain objects yield fields, so
the typeof-object guards of the source are absorbed (reads on any other
value give undefined, here none). -/
def lookupField (v : JVal) (k : String) : Option JVal :=
  match v with
  | .obj fields => (fields.find? fun kv => kv.1 = k).map fun kv => kv.2
  | _ => none

/-- Truthiness of an optional property (missing reads as undefined). -/
def truthyOpt (o : Option JVal) : Bool :=
  match o with
  | some v => jsTruthy v
  | none => false

/-- Math.trunc on a finite JavaScript number: truncation toward zero. -/
def jsTrunc (q : ℚ) : Int :=
  if 0 ≤ q then q.floor else q.ceil

/-- History-entry validation of source snapshotFromRemoteParts: from, to and
piece must be strings and turn a color; the optional fields are read typed. -/
def toMoveRecord (v : JVal) : Option MoveRecord :=
  match v with
  | .obj _ =>
    match lookupField v "from", lookupField v "to", lookupField v "turn", lookupField v "piece" with
    | some (.str f), some (.str t), some (.str tu), some (.str pi) =>
      match (if tu = "w" then some Color.w else if tu = "b" then some Color.b else none) with
      | some turn =>
        some
          { fromSq := f
            toSq := t
            turn := turn
            piece := pi
            captured :=
              match lookupField v "captured" with
              | some (.str s) => some s
              | _ => none
            promotion :=
              match lookupField v "promotion" with
              | some (.str s) =>
                match s.toList with
                | ['p'] => some .p
                | ['r'] => some .r
                | ['n'] => some .n
                | ['b'] => some .b
                | ['q'] => some .q
                | ['k'] => some .k
                | _ => none
              | _ => none
            castle :=
              match lookupField v "castle" with
              | some (.str s) => if s = "k" then some .k else if s = "q" then some .q else none
              | _ => none
            enPassant := truthyOpt (lookupField v "enPassant") }
      | none => none
    | _, _, _, _ => none
  | _ => none

/-- Source snapshotFromRemoteParts: per-field validation of externally
persisted parts with safe defaults, clamped clocks and a re-derived position
key when none was stored. -/
def snapshotFromRemoteParts (boardRaw turn status winner history lastMove stateRaw : JVal) :
    Snapshot :=
  let base := createInitialSnapshot
  let board := decodeBoard boardRaw
  let hist : List MoveRecord :=
    match history with
    | .arr xs => xs.filterMap toMoveRecord
    | _ => []
  let last : Option (String × String) :=
    match lookupField lastMove "from", lookupField lastMove "to" with
    | some (.str f), some (.str t) => some (f, t)
    | _, _ => none
  let castling : CastlingRights :=
    match lookupField stateRaw "castling" with
    | some c =>
      match c with
      | .obj _ =>
        { wk := truthyOpt (lookupField c "wk")
          wq := truthyOpt (lookupField c "wq")
          bk := truthyOpt (lookupField c "bk")
          bq := truthyOpt (lookupField c "bq") }
      | _ => base.castling
    | none => base.castling
  let enPassant : Option String :=
    match lookupField stateRaw "en_passant" with
    | some (.str s) => if (parseSquare s).isSome then some s else none
    | _ => none
  let halfmoveClock : Int :=
    match lookupField stateRaw "halfmove_clock" with
    | some (.num (.finite q)) => max 0 (jsTrunc q)
    | _ => 0
  let fullmoveNumber : Int :=
    match lookupField stateRaw "fullmove_number" with
    | some (.num (.finite q)) => max 1 (jsTrunc q)
    | _ => 1
  let positionKeys : List String :=
    match lookupField stateRaw "position_keys" with
    | some (.arr xs) =>
      xs.filterMap fun v =>
        match v with
        | .str s => some s
        | _ => none
    | _ => []
  let resultReason : Option String :=
    match lookupField stateRaw "result_reason" with
    | some (.str s) => some s
    | _ => none
  let t : Color :=
    match turn with
    | .str s => if s = "b" then .b else .w
    | _ => .w
  let st : GameStatus :=
    match status with
    | .str s =>
      if s = "checkmate" then .checkmate
      else if s = "stalemate" then .stalemate
      else if s = "draw" then .draw
      else .playing
    | _ => .playing
  let win : Option Color :=
    match winner with
    | .str s => if s = "w" then some .w else if s = "b" then some .b else none
    | _ => none
  let positionKeys :=
    if positionKeys.length = 0 then [positionKey board t castling enPassant] else positionKeys
  { board := board
    turn := t
    status := st
    winner := win
    resultReason := resultReason
    history := hist
    last := last
    castling := castling
    enPassant := enPassant
    halfmoveClock := halfmoveClock
    fullmoveNumber := fullmoveNumber
    positionKeys := positionKeys }

/-- Total number of legal moves of the white side, summed over all
white-occupied squares via legalMovesForSquare. -/
def whiteLegalMoveTotal (s : Snapshot) : Nat :=
  ((List.range 8).map fun r =>
    ((List.range 8).map fun c =>
      match getP s.board (r : Int) (c : Int) with
      | some pc => if pc.c = .w then (legalMovesForSquare s (r : Int) (c : Int)).length else 0
      | none => 0).sum).sum

theorem legalMove_safe (s : Snapshot) (r c : Int) (p : Piece) (mv : Move)
    (hp : getP s.board r c = some p) (hmem : mv ∈ legalMovesForSquare s r c) :
    ∃ raw, applyMoveRaw s mv = some raw ∧ isInCheck raw.board p.c = false := by
  unfold legalMovesForSquare at hmem
  rw [hp] at hmem
  have h := (List.mem_filter.mp hmem).2
  cases happly : applyMoveRaw s mv with
  | none => rw [happly] at h; simp at h
  | some raw =>
    rw [happly] at h
    exact ⟨raw, rfl, by simpa using h⟩

/-- C1: every move returned by legalMovesForSquare, applied with the full
move applier applyMoveRaw (which performs the castling rook relocation and
the en-passant captured-pawn removal), yields a board on which the moving
side's king is not attacked by the opponent. -/
theorem c1_self_check_invariant (s : Snapshot) (r c : Int) (p : Piece) (mv : Move)
    (hp : getP s.board r c = some p) (hmem : mv ∈ legalMovesForSquare s r c) :
    ∃ raw, applyMoveRaw s mv = some raw ∧ isInCheck raw.board p.c = false :=
  legalMove_safe s r c p mv hp hmem

/-- Witness for C1: the initial position's knight move g1-f3. -/
theorem c1_self_check_invariant_witness :
    getP createInitialSnapshot.board 7 6 = some ⟨.w, .n⟩ ∧
    ({ fromSq := ⟨7, 6⟩, toSq := ⟨5, 5⟩ } : Move) ∈ legalMovesForSquare createInitialSnapshot 7 6 ∧
    ∃ raw, applyMoveRaw createInitialSnapshot { fromSq := ⟨7, 6⟩, toSq := ⟨5, 5⟩ } = some raw ∧
      isInCheck raw.board Color.w = false :=
  ⟨by decide, by decide,
    c1_self_check_invariant createInitialSnapshot 7 6 ⟨.w, .n⟩
      { fromSq := ⟨7, 6⟩, toSq := ⟨5, 5⟩ } (by decide) (by decide)⟩

theorem resultStatus_board (n : Snapshot) : (resultStatus n).board = n.board := by
  unfold resultStatus
  dsimp only
  repeat' split
  all_goals rfl

theorem resultStatus_turn (n : Snapshot) : (resultStatus n).turn = n.turn := by
  unfold resultStatus
  dsimp only
  repeat' split
  all_goals rfl

theorem resultStatus_castling (n : Snapshot) : (resultStatus n).castling = n.castling := by
  unfold resultStatus
  dsimp only
  repeat' split
  all_goals rfl

theorem resultStatus_enPassant (n : Snapshot) : (resultStatus n).enPassant = n.enPassant := by
  unfold resultStatus
  dsimp only
  repeat' split
  all_goals rfl

theorem resultStatus_positionKeys (n : Snapshot) : (resultStatus n).positionKeys = n.positionKeys := by
  unfold resultStatus
  dsimp only
  repeat' split
  all_goals rfl

theorem resultStatus_halfmoveClock (n : Snapshot) : (resultStatus n).halfmoveClock = n.halfmoveClock := by
  unfold resultStatus
  dsimp only
  repeat' split
  all_goals rfl

theorem resultStatus_history (n : Snapshot) : (resultStatus n).history = n.history := by
  unfold resultStatus
  dsimp only
  repeat' split
  all_goals rfl

theorem resultStatus_shape (n : Snapshot) :
    ∃ st w rr, resultStatus n = { n with status := st, winner := w, resultReason := rr } := by
  unfold resultStatus
  dsimp only
  repeat' split
  all_goals exact ⟨_, _, _, rfl⟩

theorem hasAny_status_irrel (s : Snapshot) (st : GameStatus) (w : Option Color)
    (rr : Option String) (color : Color) :
    hasAnyLegalMove { s with status := st, winner := w, resultReason := rr } color =
      hasAnyLegalMove s color := by
  cases s with
  | mk bd tu stt wi re hi la ca ep hc fn pk =>
    unfold hasAnyLegalMove
    dsimp only
    by_cases h : tu = color
    · rw [if_pos h, if_pos h]
      rfl
    · rw [if_neg h, if_neg h]
      rfl

theorem makeMove_some (s : Snapshot) (f t : Coord) (promo : Option PieceType) (s' : Snapshot)
    (h : makeMove s f t promo = some s') :
    ∃ moving chosen raw,
      s.status = .playing ∧
      getP s.board f.r f.c = some moving ∧
      moving.c = s.turn ∧
      chooseCandidate (legalMovesForSquare s f.r f.c) f t promo = some chosen ∧
      applyMoveRaw s chosen = some raw ∧
      isInCheck raw.board moving.c = false ∧
      s' = resultStatus (nextSnapshot s f t moving chosen raw) := by
  unfold makeMove at h
  split at h
  · simp at h
  next hst =>
    split at h
    · simp at h
    next moving hmov =>
      split at h
      · simp at h
      next hcol =>
        split at h
        · simp at h
        next chosen hch =>
          split at h
          · simp at h
          next raw hraw =>
            split at h
            · simp at h
            next hcheck =>
              refine ⟨moving, chosen, raw, not_not.mp hst, hmov, not_not.mp hcol, hch, hraw, ?_, ?_⟩
              · simpa using hcheck
              · exact (Option.some.inj h).symm

theorem applyMoveRaw_castling (s : Snapshot) (mv : Move) (raw : RawApply)
    (h : applyMoveRaw s mv = some raw) :
    raw.castling = updateCastling s.castling raw.moving mv.fromSq mv.toSq raw.captured := by
  unfold applyMoveRaw at h
  split at h
  · simp at h
  next moving hmov =>
    have h2 := Option.some.inj h
    subst h2
    rfl

theorem updateCastling_mono (cr : CastlingRights) (m : Piece) (f t : Coord) (cap : Option Piece) :
    ((updateCastling cr m f t cap).wk = true → cr.wk = true) ∧
    ((updateCastling cr m f t cap).wq = true → cr.wq = true) ∧
    ((updateCastling cr m f t cap).bk = true → cr.bk = true) ∧
    ((updateCastling cr m f t cap).bq = true → cr.bq = true) := by
  unfold updateCastling
  refine ⟨?_, ?_, ?_, ?_⟩ <;>
    · intro h
      simp only [Bool.and_eq_true] at h
      exact h.1

theorem makeMove_castling_mono (s : Snapshot) (f t : Coord) (promo : Option PieceType)
    (s' : Snapshot) (h : makeMove s f t promo = some s') :
    (s.castling.wk = false → s'.castling.wk = false) ∧
    (s.castling.wq = false → s'.castling.wq = false) ∧
    (s.castling.bk = false → s'.castling.bk = false) ∧
    (s.castling.bq = false → s'.castling.bq = false) := by
  obtain ⟨moving, chosen, raw, _, _, _, _, hraw, _, hs'⟩ := makeMove_some s f t promo s' h
  have hcast : s'.castling = raw.castling := by
    rw [hs']
    exact resultStatus_castling _
  have hupd := applyMoveRaw_castling s chosen raw hraw
  have mono := updateCastling_mono s.castling raw.moving chosen.fromSq chosen.toSq raw.captured
  rw [hcast, hupd]
  refine ⟨fun hf => ?_, fun hf => ?_, fun hf => ?_, fun hf => ?_⟩
  · cases hres : (updateCastling s.castling raw.moving chosen.fromSq chosen.toSq raw.captured).wk
    · rfl
    · rw [mono.1 hres] at hf
      exact Bool.noConfusion hf
  · cases hres : (updateCastling s.castling raw.moving chosen.fromSq chosen.toSq raw.captured).wq
    · rfl
    · rw [mono.2.1 hres] at hf
      exact Bool.noConfusion hf
  · cases hres : (updateCastling s.castling raw.moving chosen.fromSq chosen.toSq raw.captured).bk
    · rfl
    · rw [mono.2.2.1 hres] at hf
      exact Bool.noConfusion hf
  · cases hres : (updateCastling s.castling raw.moving chosen.fromSq chosen.toSq raw.captured).bq
    · rfl
    · rw [mono.2.2.2 hres] at hf
      exact Bool.noConfusion hf

/-- C4: each of the four castling-right booleans is monotonic under makeMove:
once a right is false in a snapshot, it stays false in every snapshot
produced from it by any sequence of applied moves (stated for all snapshots,
which subsumes the snapshots reachable from the initial one). -/
theorem c4_castling_monotonic (ms : List (Coord × Coord × Option PieceType)) (s s' : Snapshot)
    (h : applyMoves s ms = some s') :
    (s.castling.wk = false → s'.castling.wk = false) ∧
    (s.castling.wq = false → s'.castling.wq = false) ∧
    (s.castling.bk = false → s'.castling.bk = false) ∧
    (s.castling.bq = false → s'.castling.bq = false) := by
  induction ms generalizing s with
  | nil =>
    unfold applyMoves at h
    have h2 := Option.some.inj h
    subst h2
    exact ⟨id, id, id, id⟩
  | cons m rest ih =>
    obtain ⟨f, t, pr⟩ := m
    unfold applyMoves at h
    split at h
    · simp at h
    next s1 hmk =>
      have h1 := makeMove_castling_mono s f t pr s1 hmk
      have h2 := ih s1 h
      exact ⟨fun hf => h2.1 (h1.1 hf), fun hf => h2.2.1 (h1.2.1 hf),
        fun hf => h2.2.2.1 (h1.2.2.1 hf), fun hf => h2.2.2.2 (h1.2.2.2 hf)⟩

/-- Snapshot with bare kings, a white rook on a1 and every castling right
already cleared, used to witness irreversibility. -/
def c4Snap : Snapshot :=
  { board :=
      [[none, none, none, none, some ⟨.b, .k⟩, none, none, none],
       emptyRow, emptyRow, emptyRow, emptyRow, emptyRow, emptyRow,
       [some ⟨.w, .r⟩, none, none, none, some ⟨.w, .k⟩, none, none, none]]
    turn := .w
    status := .playing
    winner := none
    resultReason := none
    history := []
    last := none
    castling := ⟨false, false, false, false⟩
    enPassant := none
    halfmoveClock := 0
    fullmoveNumber := 1
    positionKeys := [] }

/-- Result of the rook move a1-a2 on c4Snap. -/
def c4SnapAfter : Snapshot :=
  (applyMoves c4Snap [(⟨7, 0⟩, ⟨6, 0⟩, none)]).getD createInitialSnapshot

/-- Witness for C4: the cleared rights stay cleared across an applied move. -/
theorem c4_castling_monotonic_witness :
    c4Snap.castling.wk = false ∧
    applyMoves c4Snap [(⟨7, 0⟩, ⟨6, 0⟩, none)] = some c4SnapAfter ∧
    c4SnapAfter.castling.wk = false ∧ c4SnapAfter.castling.wq = false ∧
    c4SnapAfter.castling.bk = false ∧ c4SnapAfter.castling.bq = false := by
  refine ⟨rfl, rfl, ?_, ?_, ?_, ?_⟩
  · exact (c4_castling_monotonic [(⟨7, 0⟩, ⟨6, 0⟩, none)] c4Snap c4SnapAfter rfl).1 rfl
  · exact (c4_castling_monotonic [(⟨7, 0⟩, ⟨6, 0⟩, none)] c4Snap c4SnapAfter rfl).2.1 rfl
  · exact (c4_castling_monotonic [(⟨7, 0⟩, ⟨6, 0⟩, none)] c4Snap c4SnapAfter rfl).2.2.1 rfl
  · exact (c4_castling_monotonic [(⟨7, 0⟩, ⟨6, 0⟩, none)] c4Snap c4SnapAfter rfl).2.2.2 rfl

theorem resultStatus_hasMoves_transfer (n : Snapshot) :
    hasAnyLegalMove (resultStatus n) (resultStatus n).turn = hasAnyLegalMove n n.turn := by
  obtain ⟨st, w, rr, heq⟩ := resultStatus_shape n
  rw [heq]
  have htu : ({ n with status := st, winner := w, resultReason := rr } : Snapshot).turn = n.turn := rfl
  rw [htu]
  exact hasAny_status_irrel n st w rr n.turn

theorem resultStatus_playing_hasMoves (n : Snapshot) (hst : n.status = .playing)
    (hm : hasAnyLegalMove n n.turn = true) :
    resultStatus n =
      (if 3 ≤ (n.positionKeys.filter fun k =>
            k = positionKey n.board n.turn n.castling n.enPassant).length then
         { n with status := .draw, winner := none, resultReason := some "threefold repetition" }
       else if 100 ≤ n.halfmoveClock then
         { n with status := .draw, winner := none, resultReason := some "fifty-move rule" }
       else if insufficientMaterial n.board then
         { n with status := .draw, winner := none, resultReason := some "insufficient material" }
       else n) := by
  unfold resultStatus
  dsimp only
  rw [hm]
  rw [if_neg (not_not.mpr hst)]
  simp only [Bool.not_true]
  rw [if_neg (by simp)]

theorem applyMoveRaw_halfmove (s : Snapshot) (mv : Move) (raw : RawApply)
    (h : applyMoveRaw s mv = some raw) :
    raw.halfmoveClock =
      (if raw.moving.t = .p ∨ raw.captured.isSome = true then 0 else s.halfmoveClock + 1) := by
  unfold applyMoveRaw at h
  split at h
  · simp at h
  next moving hmov =>
    have h2 := Option.some.inj h
    subst h2
    rfl

theorem applyMoveRaw_moving (s : Snapshot) (mv : Move) (raw : RawApply)
    (h : applyMoveRaw s mv = some raw) :
    getP s.board mv.fromSq.r mv.fromSq.c = some raw.moving := by
  unfold applyMoveRaw at h
  split at h
  · simp at h
  next moving hmov =>
    have h2 := Option.some.inj h
    subst h2
    exact hmov

/-- C5: after an applied move that leaves the new side to move with a legal
move, the status becomes draw with reason threefold repetition exactly when
the canonical position key of the resulting position occurs at least 3 times
among the recorded keys (history plus current) - and not with fewer
occurrences - taking priority over the fifty-move and insufficient-material
checks, which are not consulted in that case. -/
theorem c5_threefold_repetition (s : Snapshot) (f t : Coord) (promo : Option PieceType)
    (s' : Snapshot) (h : makeMove s f t promo = some s')
    (hm : hasAnyLegalMove s' s'.turn = true) :
    (3 ≤ (s'.positionKeys.filter fun k =>
        k = positionKey s'.board s'.turn s'.castling s'.enPassant).length →
      s'.status = .draw ∧ s'.resultReason = some "threefold repetition") ∧
    ((s'.positionKeys.filter fun k =>
        k = positionKey s'.board s'.turn s'.castling s'.enPassant).length < 3 →
      s'.resultReason ≠ some "threefold repetition") := by
  obtain ⟨moving, chosen, raw, hst0, hmov, hcol, hch, hraw, hchk, hs'⟩ :=
    makeMove_some s f t promo s' h
  have hmn : hasAnyLegalMove (nextSnapshot s f t moving chosen raw)
      (nextSnapshot s f t moving chosen raw).turn = true := by
    rw [hs'] at hm
    rwa [resultStatus_hasMoves_transfer] at hm
  have hspec := resultStatus_playing_hasMoves (nextSnapshot s f t moving chosen raw) rfl hmn
  have hb : s'.board = (nextSnapshot s f t moving chosen raw).board := by
    rw [hs']; exact resultStatus_board _
  have htu : s'.turn = (nextSnapshot s f t moving chosen raw).turn := by
    rw [hs']; exact resultStatus_turn _
  have hca : s'.castling = (nextSnapshot s f t moving chosen raw).castling := by
    rw [hs']; exact resultStatus_castling _
  have hep : s'.enPassant = (nextSnapshot s f t moving chosen raw).enPassant := by
    rw [hs']; exact resultStatus_enPassant _
  have hpk : s'.positionKeys = (nextSnapshot s f t moving chosen raw).positionKeys := by
    rw [hs']; exact resultStatus_positionKeys _
  constructor
  · intro h3
    rw [hb, htu, hca, hep, hpk] at h3
    rw [hs', hspec, if_pos h3]
    exact ⟨rfl, rfl⟩
  · intro h3
    rw [hb, htu, hca, hep, hpk] at h3
    rw [hs', hspec, if_neg (by omega)]
    split
    · intro hco
      exact absurd (Option.some.inj hco) (by decide)
    · split
      · intro hco
        exact absurd (Option.some.inj hco) (by decide)
      · intro hco
        exact Option.noConfusion hco

/-- Position after the opening move e2-e4. -/
def c5SnapAfter : Snapshot :=
  (makeMove createInitialSnapshot ⟨6, 4⟩ ⟨4, 4⟩ none).getD createInitialSnapshot

/-- Witness for C5: after e2-e4 the position key count is below 3 and the
status evaluator does not report threefold repetition. -/
theorem c5_threefold_repetition_witness :
    makeMove createInitialSnapshot ⟨6, 4⟩ ⟨4, 4⟩ none = some c5SnapAfter ∧
    hasAnyLegalMove c5SnapAfter c5SnapAfter.turn = true ∧
    c5SnapAfter.resultReason ≠ some "threefold repetition" :=
  ⟨rfl, rfl,
    (c5_threefold_repetition createInitialSnapshot ⟨6, 4⟩ ⟨4, 4⟩ none c5SnapAfter rfl rfl).2
      (by decide)⟩

/-- C6: for every applied move the new snapshot's halfmove clock is 0 when
the applied move was a pawn move or a capture and the old clock plus 1
otherwise - stated for the very move makeMove chose and applied: chosen is
makeMove's candidate selection for the submission, raw its application,
raw.moving the piece the applier read at the chosen origin, and the result
snapshot is the status evaluation of the snapshot built from chosen and raw;
and when after an applied move the side to move still has a legal move, no
threefold repetition holds and the clock is at least 100, the status becomes
draw with reason fifty-move rule. -/
theorem c6_halfmove_clock_and_fifty_move_rule :
    (∀ (s : Snapshot) (f t : Coord) (promo : Option PieceType) (s' : Snapshot),
      makeMove s f t promo = some s' →
      ∃ moving chosen raw,
        s.status = .playing ∧
        getP s.board f.r f.c = some moving ∧
        chooseCandidate (legalMovesForSquare s f.r f.c) f t promo = some chosen ∧
        applyMoveRaw s chosen = some raw ∧
        getP s.board chosen.fromSq.r chosen.fromSq.c = some raw.moving ∧
        s' = resultStatus (nextSnapshot s f t moving chosen raw) ∧
        s'.halfmoveClock =
          (if raw.moving.t = .p ∨ raw.captured.isSome = true then 0
           else s.halfmoveClock + 1)) ∧
    (∀ (s : Snapshot) (f t : Coord) (promo : Option PieceType) (s' : Snapshot),
      makeMove s f t promo = some s' →
      hasAnyLegalMove s' s'.turn = true →
      (s'.positionKeys.filter fun k =>
        k = positionKey s'.board s'.turn s'.castling s'.enPassant).length < 3 →
      100 ≤ s'.halfmoveClock →
      s'.status = .draw ∧ s'.resultReason = some "fifty-move rule") := by
  constructor
  · intro s f t promo s' h
    obtain ⟨moving, chosen, raw, hst, hmov, hcol, hch, hraw, hchk, hs'⟩ :=
      makeMove_some s f t promo s' h
    refine ⟨moving, chosen, raw, hst, hmov, hch, hraw,
      applyMoveRaw_moving s chosen raw hraw, hs', ?_⟩
    have hh : s'.halfmoveClock = raw.halfmoveClock := by
      rw [hs']
      exact resultStatus_halfmoveClock _
    rw [hh]
    exact applyMoveRaw_halfmove s chosen raw hraw
  · intro s f t promo s' h hm h3 h100
    obtain ⟨moving, chosen, raw, hst0, hmov, hcol, hch, hraw, hchk, hs'⟩ :=
      makeMove_some s f t promo s' h
    have hmn : hasAnyLegalMove (nextSnapshot s f t moving chosen raw)
        (nextSnapshot s f t moving chosen raw).turn = true := by
      rw [hs'] at hm
      rwa [resultStatus_hasMoves_transfer] at hm
    have hspec := resultStatus_playing_hasMoves (nextSnapshot s f t moving chosen raw) rfl hmn
    have hb : s'.board = (nextSnapshot s f t moving chosen raw).board := by
      rw [hs']; exact resultStatus_board _
    have htu : s'.turn = (nextSnapshot s f t moving chosen raw).turn := by
      rw [hs']; exact resultStatus_turn _
    have hca : s'.castling = (nextSnapshot s f t moving chosen raw).castling := by
      rw [hs']; exact resultStatus_castling _
    have hep : s'.enPassant = (nextSnapshot s f t moving chosen raw).enPassant := by
      rw [hs']; exact resultStatus_enPassant _
    have hpk : s'.positionKeys = (nextSnapshot s f t moving chosen raw).positionKeys := by
      rw [hs']; exact resultStatus_positionKeys _
    have hhc : s'.halfmoveClock = (nextSnapshot s f t moving chosen raw).halfmoveClock := by
      rw [hs']; exact resultStatus_halfmoveClock _
    rw [hb, htu, hca, hep, hpk] at h3
    rw [hhc] at h100
    rw [hs', hspec, if_neg (by omega), if_pos h100]
    exact ⟨rfl, rfl⟩

/-- Snapshot with bare kings and a white rook, halfmove clock already at
150, used to witness the fifty-move rule. -/
def c6Snap : Snapshot :=
  { board :=
      [[none, none, none, none, some ⟨.b, .k⟩, none, none, none],
       emptyRow, emptyRow, emptyRow, emptyRow, emptyRow, emptyRow,
       [some ⟨.w, .r⟩, none, none, none, some ⟨.w, .k⟩, none, none, none]]
    turn := .w
    status := .playing
    winner := none
    resultReason := none
    history := []
    last := none
    castling := ⟨false, false, false, false⟩
    enPassant := none
    halfmoveClock := 150
    fullmoveNumber := 80
    positionKeys := [] }

/-- Position after the quiet rook move a1-a2 on c6Snap. -/
def c6SnapAfter : Snapshot :=
  (makeMove c6Snap ⟨7, 0⟩ ⟨6, 0⟩ none).getD createInitialSnapshot

/-- Position after the opening move e2-e4, for the clock-reset part of C6. -/
def c6PawnSnapAfter : Snapshot :=
  (makeMove createInitialSnapshot ⟨6, 4⟩ ⟨4, 4⟩ none).getD createInitialSnapshot

/-- Witness for C6: the pawn move e2-e4 resets the clock to 0 through the
chosen-move chain, and a quiet rook move at clock 150 yields clock 151 and a
fifty-move-rule draw. -/
theorem c6_halfmove_clock_and_fifty_move_rule_witness :
    (makeMove createInitialSnapshot ⟨6, 4⟩ ⟨4, 4⟩ none = some c6PawnSnapAfter ∧
      c6PawnSnapAfter.halfmoveClock = 0 ∧
      (∃ moving chosen raw,
        createInitialSnapshot.status = .playing ∧
        getP createInitialSnapshot.board 6 4 = some moving ∧
        chooseCandidate (legalMovesForSquare createInitialSnapshot 6 4) ⟨6, 4⟩ ⟨4, 4⟩ none =
          some chosen ∧
        applyMoveRaw createInitialSnapshot chosen = some raw ∧
        getP createInitialSnapshot.board chosen.fromSq.r chosen.fromSq.c = some raw.moving ∧
        c6PawnSnapAfter =
          resultStatus (nextSnapshot createInitialSnapshot ⟨6, 4⟩ ⟨4, 4⟩ moving chosen raw) ∧
        c6PawnSnapAfter.halfmoveClock =
          (if raw.moving.t = .p ∨ raw.captured.isSome = true then 0
           else createInitialSnapshot.halfmoveClock + 1))) ∧
    (makeMove c6Snap ⟨7, 0⟩ ⟨6, 0⟩ none = some c6SnapAfter ∧
      c6SnapAfter.halfmoveClock = 151 ∧
      c6SnapAfter.status = .draw ∧ c6SnapAfter.resultReason = some "fifty-move rule") :=
  ⟨⟨rfl, rfl,
      c6_halfmove_clock_and_fifty_move_rule.1 createInitialSnapshot ⟨6, 4⟩ ⟨4, 4⟩ none
        c6PawnSnapAfter rfl⟩,
    ⟨rfl, rfl,
      c6_halfmove_clock_and_fifty_move_rule.2 c6Snap ⟨7, 0⟩ ⟨6, 0⟩ none c6SnapAfter rfl rfl
        (by decide) (by decide)⟩⟩

theorem chooseCandidate_mem (legal : List Move) (f t : Coord) (promo : Option PieceType)
    (chosen : Move) (h : chooseCandidate legal f t promo = some chosen) :
    chosen ∈ legal ∧ chosen.toSq.r = t.r ∧ chosen.toSq.c = t.c := by
  unfold chooseCandidate at h
  dsimp only at h
  cases hfind : List.find?
      (fun mv => sameMove mv { fromSq := f, toSq := t, promotion := promo, castle := none, enPassant := false })
      legal with
  | some m =>
    rw [hfind] at h
    have hm := Option.some.inj h
    subst hm
    have hmem := List.mem_of_find?_eq_some hfind
    have hsame := List.find?_some hfind
    unfold sameMove at hsame
    simp only [decide_eq_true_eq] at hsame
    exact ⟨hmem, hsame.2.2.1, hsame.2.2.2.1⟩
  | none =>
    rw [hfind] at h
    dsimp only at h
    have hfromfilter :
        chosen ∈ legal.filter fun mv => decide (mv.toSq.r = t.r ∧ mv.toSq.c = t.c) := by
      cases promo with
      | some pr =>
        dsimp only at h
        exact List.mem_of_find?_eq_some h
      | none =>
        dsimp only at h
        split at h
        · match hc : List.filter (fun mv => decide (mv.toSq.r = t.r ∧ mv.toSq.c = t.c)) legal with
          | [] =>
            rw [hc] at h
            simp at h
          | a :: l =>
            rw [hc] at h
            have ha := Option.some.inj h
            subst ha
            rw [hc]
            exact List.mem_cons_self _ _
        · exact List.mem_of_find?_eq_some h
    have hspec := List.mem_filter.mp hfromfilter
    have hcond := of_decide_eq_true hspec.2
    exact ⟨hspec.1, hcond.1, hcond.2⟩

/-- Snapshot with a black knight parked on the h1 corner while the white
kingside castling right is still set, reconstructible through the remote
decode path, used to refute the any-piece version of corner-capture
revocation. -/
def c2Snap : Snapshot :=
  { board :=
      [emptyRow,
       [none, none, none, none, none, none, some ⟨.b, .k⟩, none],
       emptyRow, emptyRow, emptyRow,
       [none, some ⟨.w, .k⟩, none, none, none, none, none, none],
       [none, none, none, none, none, none, none, some ⟨.w, .q⟩],
       [none, none, none, none, none, none, none, some ⟨.b, .n⟩]]
    turn := .w
    status := .playing
    winner := none
    resultReason := none
    history := []
    last := none
    castling := ⟨true, true, true, true⟩
    enPassant := none
    halfmoveClock := 0
    fullmoveNumber := 1
    positionKeys := [] }

/-- Position after the white queen h2 captures the knight on h1. -/
def c2SnapAfter : Snapshot :=
  (makeMove c2Snap ⟨6, 7⟩ ⟨7, 7⟩ none).getD createInitialSnapshot

/-- Counterexample for C2: a knight (not a rook) is captured on the h1
corner by makeMove, yet the white kingside right stays true; the source
clears a right only when the captured piece is a rook. -/
theorem c2_corner_capture_counterexample :
    getP c2Snap.board 7 7 = some ⟨.b, .n⟩ ∧
    c2Snap.castling.wk = true ∧
    makeMove c2Snap ⟨6, 7⟩ ⟨7, 7⟩ none = some c2SnapAfter ∧
    (c2SnapAfter.history.map fun mr => mr.captured) = [some "bn"] ∧
    c2SnapAfter.castling.wk = true :=
  ⟨rfl, rfl, rfl, rfl, rfl⟩

/-- C2 amended: after a rook is captured on a rook's home corner square by
makeMove, the corresponding castling right of that corner's color and side
is false in the resulting snapshot.  Stated as the corner-clearing facts of
the move applier together with the bridge from makeMove (whose chosen move
lands on the requested destination and whose resulting castling rights are
the applier's). -/
theorem c2_rook_capture_clears_right :
    (∀ (s : Snapshot) (mv : Move) (raw : RawApply), applyMoveRaw s mv = some raw →
      ∀ pc, raw.captured = some pc → pc.t = .r →
        (mv.toSq.r = 7 ∧ mv.toSq.c = 0 → raw.castling.wq = false) ∧
        (mv.toSq.r = 7 ∧ mv.toSq.c = 7 → raw.castling.wk = false) ∧
        (mv.toSq.r = 0 ∧ mv.toSq.c = 0 → raw.castling.bq = false) ∧
        (mv.toSq.r = 0 ∧ mv.toSq.c = 7 → raw.castling.bk = false)) ∧
    (∀ (s : Snapshot) (f t : Coord) (promo : Option PieceType) (s' : Snapshot),
      makeMove s f t promo = some s' →
      ∃ chosen raw, applyMoveRaw s chosen = some raw ∧
        chosen.toSq.r = t.r ∧ chosen.toSq.c = t.c ∧ s'.castling = raw.castling) := by
  constructor
  · intro s mv raw h pc hcap hrook
    have hc := applyMoveRaw_castling s mv raw h
    rw [hc]
    unfold updateCastling
    dsimp only
    rw [hcap]
    refine ⟨fun hsq => ?_, fun hsq => ?_, fun hsq => ?_, fun hsq => ?_⟩ <;>
      simp [hrook, hsq.1, hsq.2]
  · intro s f t promo s' h
    obtain ⟨moving, chosen, raw, _, _, _, hch, hraw, _, hs'⟩ := makeMove_some s f t promo s' h
    obtain ⟨_, htr, htc⟩ := chooseCandidate_mem (legalMovesForSquare s f.r f.c) f t promo chosen hch
    refine ⟨chosen, raw, hraw, htr, htc, ?_⟩
    rw [hs']
    exact resultStatus_castling _

/-- Snapshot like c2Snap but with the untouched black rook on h1. -/
def c2RookSnap : Snapshot :=
  { board :=
      [emptyRow,
       [none, none, none, none, none, none, some ⟨.b, .k⟩, none],
       emptyRow, emptyRow, emptyRow,
       [none, some ⟨.w, .k⟩, none, none, none, none, none, none],
       [none, none, none, none, none, none, none, some ⟨.w, .q⟩],
       [none, none, none, none, none, none, none, some ⟨.b, .r⟩]]
    turn := .w
    status := .playing
    winner := none
    resultReason := none
    history := []
    last := none
    castling := ⟨true, true, true, true⟩
    enPassant := none
    halfmoveClock := 0
    fullmoveNumber := 1
    positionKeys := [] }

/-- The raw application of the queen capture h2xh1 on c2RookSnap. -/
def c2RookRaw : RawApply :=
  (applyMoveRaw c2RookSnap { fromSq := ⟨6, 7⟩, toSq := ⟨7, 7⟩ }).getD
    ⟨[], ⟨false, false, false, false⟩, none, none, ⟨.w, .p⟩, ⟨.w, .p⟩, 0, 0, .w⟩

/-- Witness for the amended C2: capturing the rook on h1 clears the white
kingside right in the applier's result. -/
theorem c2_rook_capture_clears_right_witness :
    applyMoveRaw c2RookSnap { fromSq := ⟨6, 7⟩, toSq := ⟨7, 7⟩ } = some c2RookRaw ∧
    c2RookRaw.captured = some ⟨.b, .r⟩ ∧
    c2RookRaw.castling.wk = false :=
  ⟨rfl, rfl,
    (c2_rook_capture_clears_right.1 c2RookSnap { fromSq := ⟨6, 7⟩, toSq := ⟨7, 7⟩ } c2RookRaw rfl
      ⟨.b, .r⟩ rfl rfl).2.1 ⟨rfl, rfl⟩⟩

theorem makeMove_branches (s : Snapshot) (f t : Coord) (promo : Option PieceType)
    (moving : Piece) (hst : s.status = .playing) (hmov : getP s.board f.r f.c = some moving)
    (hcol : moving.c = s.turn) :
    makeMove s f t promo =
      (match chooseCandidate (legalMovesForSquare s f.r f.c) f t promo with
       | none => none
       | some chosen =>
         match applyMoveRaw s chosen with
         | none => none
         | some raw =>
           if isInCheck raw.board moving.c then none
           else some (resultStatus (nextSnapshot s f t moving chosen raw))) := by
  unfold makeMove
  rw [if_neg (not_not.mpr hst), hmov]
  dsimp only
  rw [if_neg (not_not.mpr hcol)]

theorem makeMove_of_legal_choice (s : Snapshot) (f t : Coord) (promo : Option PieceType)
    (moving : Piece) (mv0 : Move) (hst : s.status = .playing)
    (hmov : getP s.board f.r f.c = some moving) (hcol : moving.c = s.turn)
    (hcc : chooseCandidate (legalMovesForSquare s f.r f.c) f t promo = some mv0)
    (hmem : mv0 ∈ legalMovesForSquare s f.r f.c) :
    ∃ raw, applyMoveRaw s mv0 = some raw ∧
      makeMove s f t promo = some (resultStatus (nextSnapshot s f t moving mv0 raw)) := by
  obtain ⟨raw, hraw, hsafe⟩ := legalMove_safe s f.r f.c moving mv0 hmov hmem
  refine ⟨raw, hraw, ?_⟩
  rw [makeMove_branches s f t promo moving hst hmov hcol, hcc]
  dsimp only
  rw [hraw]
  dsimp only
  rw [if_neg (by rw [hsafe]; exact Bool.false_ne_true)]

/-- C3 amended: when no legal candidate matches a submission exactly,
makeMove's fallback filters the legal candidates by destination square only;
with a supplied promotion it picks the candidate carrying that promotion
(and rejects when none carries it); with none supplied it accepts a unique
destination-matching candidate, and with more than one it picks the first
destination-matching candidate without a promotion - accepting it when one
exists (possible only with a corrupted en-passant target) and rejecting only
when every destination-matching candidate carries a promotion, the
promotion-ambiguity case. -/
theorem c3_fallback_promotion_handling :
    (∀ (s : Snapshot) (f t : Coord) (moving : Piece),
      s.status = .playing → getP s.board f.r f.c = some moving → moving.c = s.turn →
      List.find? (fun mv => sameMove mv
          { fromSq := f, toSq := t, promotion := none, castle := none, enPassant := false })
        (legalMovesForSquare s f.r f.c) = none →
      ∀ mv0, (legalMovesForSquare s f.r f.c).filter
          (fun mv => mv.toSq.r = t.r ∧ mv.toSq.c = t.c) = [mv0] →
      ∃ s', makeMove s f t none = some s') ∧
    (∀ (s : Snapshot) (f t : Coord) (moving : Piece),
      s.status = .playing → getP s.board f.r f.c = some moving → moving.c = s.turn →
      List.find? (fun mv => sameMove mv
          { fromSq := f, toSq := t, promotion := none, castle := none, enPassant := false })
        (legalMovesForSquare s f.r f.c) = none →
      1 < ((legalMovesForSquare s f.r f.c).filter
          (fun mv => mv.toSq.r = t.r ∧ mv.toSq.c = t.c)).length →
      (∀ mv ∈ (legalMovesForSquare s f.r f.c).filter
          (fun mv => mv.toSq.r = t.r ∧ mv.toSq.c = t.c), mv.promotion.isSome = true) →
      makeMove s f t none = none) ∧
    (∀ (s : Snapshot) (f t : Coord) (moving : Piece),
      s.status = .playing → getP s.board f.r f.c = some moving → moving.c = s.turn →
      List.find? (fun mv => sameMove mv
          { fromSq := f, toSq := t, promotion := none, castle := none, enPassant := false })
        (legalMovesForSquare s f.r f.c) = none →
      1 < ((legalMovesForSquare s f.r f.c).filter
          (fun mv => mv.toSq.r = t.r ∧ mv.toSq.c = t.c)).length →
      ∀ mv0, ((legalMovesForSquare s f.r f.c).filter
          (fun mv => mv.toSq.r = t.r ∧ mv.toSq.c = t.c)).find?
          (fun mv => mv.promotion = none) = some mv0 →
      ∃ s', makeMove s f t none = some s') ∧
    (∀ (s : Snapshot) (f t : Coord) (pr : PieceType) (moving : Piece),
      s.status = .playing → getP s.board f.r f.c = some moving → moving.c = s.turn →
      List.find? (fun mv => sameMove mv
          { fromSq := f, toSq := t, promotion := some pr, castle := none, enPassant := false })
        (legalMovesForSquare s f.r f.c) = none →
      ∀ mv0, ((legalMovesForSquare s f.r f.c).filter
          (fun mv => mv.toSq.r = t.r ∧ mv.toSq.c = t.c)).find?
          (fun mv => mv.promotion = some pr) = some mv0 →
      ∃ s', makeMove s f t (some pr) = some s' ∧
        ∃ mr, s'.history = s.history ++ [mr] ∧ mr.promotion = some pr) ∧
    (∀ (s : Snapshot) (f t : Coord) (pr : PieceType) (moving : Piece),
      s.status = .playing → getP s.board f.r f.c = some moving → moving.c = s.turn →
      List.find? (fun mv => sameMove mv
          { fromSq := f, toSq := t, promotion := some pr, castle := none, enPassant := false })
        (legalMovesForSquare s f.r f.c) = none →
      ((legalMovesForSquare s f.r f.c).filter
          (fun mv => mv.toSq.r = t.r ∧ mv.toSq.c = t.c)).find?
          (fun mv => mv.promotion = some pr) = none →
      makeMove s f t (some pr) = none) := by
  refine ⟨?_, ?_, ?_, ?_, ?_⟩
  · intro s f t moving hst hmov hcol hfind mv0 hcand
    have hcc : chooseCandidate (legalMovesForSquare s f.r f.c) f t none = some mv0 := by
      unfold chooseCandidate
      dsimp only
      rw [hfind]
      dsimp only
      rw [hcand]
      rfl
    have hmem : mv0 ∈ legalMovesForSquare s f.r f.c := by
      have : mv0 ∈ (legalMovesForSquare s f.r f.c).filter
          (fun mv => decide (mv.toSq.r = t.r ∧ mv.toSq.c = t.c)) := by
        rw [hcand]
        exact List.mem_cons_self _ _
      exact (List.mem_filter.mp this).1
    obtain ⟨raw, _, hmk⟩ := makeMove_of_legal_choice s f t none moving mv0 hst hmov hcol hcc hmem
    exact ⟨_, hmk⟩
  · intro s f t moving hst hmov hcol hfind hlen hall
    have hcc : chooseCandidate (legalMovesForSquare s f.r f.c) f t none = none := by
      unfold chooseCandidate
      dsimp only
      rw [hfind]
      dsimp only
      rw [if_neg (by omega)]
      rw [List.find?_eq_none]
      intro mv hmv
      have hs := hall mv hmv
      simp only [decide_eq_true_eq]
      intro heq
      rw [heq] at hs
      exact Bool.noConfusion hs
    rw [makeMove_branches s f t none moving hst hmov hcol, hcc]
  · intro s f t moving hst hmov hcol hfind hlen mv0 hpick
    have hcc : chooseCandidate (legalMovesForSquare s f.r f.c) f t none = some mv0 := by
      unfold chooseCandidate
      dsimp only
      rw [hfind]
      dsimp only
      rw [if_neg (by omega)]
      exact hpick
    have hmem0 := List.mem_of_find?_eq_some hpick
    have hmem : mv0 ∈ legalMovesForSquare s f.r f.c := (List.mem_filter.mp hmem0).1
    obtain ⟨raw, _, hmk⟩ := makeMove_of_legal_choice s f t none moving mv0 hst hmov hcol hcc hmem
    exact ⟨_, hmk⟩
  · intro s f t pr moving hst hmov hcol hfind mv0 hpick
    have hcc : chooseCandidate (legalMovesForSquare s f.r f.c) f t (some pr) = some mv0 := by
      unfold chooseCandidate
      dsimp only
      rw [hfind]
      dsimp only
      exact hpick
    have hmem0 := List.mem_of_find?_eq_some hpick
    have hmem : mv0 ∈ legalMovesForSquare s f.r f.c := (List.mem_filter.mp hmem0).1
    have hpr : mv0.promotion = some pr := by
      have := List.find?_some hpick
      exact of_decide_eq_true this
    obtain ⟨raw, _, hmk⟩ := makeMove_of_legal_choice s f t (some pr) moving mv0 hst hmov hcol hcc hmem
    have hhist : (resultStatus (nextSnapshot s f t moving mv0 raw)).history =
        s.history ++
          [{ fromSq := sqName f.r f.c
             toSq := sqName t.r t.c
             turn := moving.c
             piece := (code (some moving)).getD ""
             captured := code raw.captured
             promotion := mv0.promotion
             castle := mv0.castle
             enPassant := mv0.enPassant }] := by
      rw [resultStatus_history]
      rfl
    exact ⟨_, hmk, _, hhist, hpr⟩
  · intro s f t pr moving hst hmov hcol hfind hpick
    have hcc : chooseCandidate (legalMovesForSquare s f.r f.c) f t (some pr) = none := by
      unfold chooseCandidate
      dsimp only
      rw [hfind]
      dsimp only
      exact hpick
    rw [makeMove_branches s f t (some pr) moving hst hmov hcol, hcc]

/-- Snapshot with a corrupted en-passant target "e8" (storable through
snapshotFromRemoteParts, which validates en_passant only as a square name),
a white pawn on d7, a black rook on e8 and kings parked safely, used to
refute the unconditional rejection clause of the fallback. -/
def c3CexSnap : Snapshot :=
  { board :=
      [[none, some ⟨.b, .k⟩, none, none, some ⟨.b, .r⟩, none, none, none],
       [none, none, none, some ⟨.w, .p⟩, none, none, none, none],
       emptyRow, emptyRow, emptyRow, emptyRow, emptyRow,
       [none, none, none, none, none, none, some ⟨.w, .k⟩, none]]
    turn := .w
    status := .playing
    winner := none
    resultReason := none
    history := []
    last := none
    castling := ⟨false, false, false, false⟩
    enPassant := some "e8"
    halfmoveClock := 0
    fullmoveNumber := 1
    positionKeys := [] }

/-- Position after submitting d7-e8 with no promotion on c3CexSnap. -/
def c3CexAfter : Snapshot :=
  (makeMove c3CexSnap ⟨1, 3⟩ ⟨0, 4⟩ none).getD createInitialSnapshot

/-- Counterexample for C3: no legal candidate matches the request d7-e8
exactly, more than one destination-matching candidate exists (four promotion
captures and one promotionless en-passant move) and no promotion is
supplied, yet makeMove accepts - the source fallback ends in
candidates.find(mv => !mv.promotion) rather than rejecting, and picks the
promotionless en-passant candidate as the recorded move shows. -/
theorem c3_fallback_counterexample :
    c3CexSnap.status = .playing ∧
    getP c3CexSnap.board 1 3 = some ⟨.w, .p⟩ ∧
    List.find? (fun mv => sameMove mv
        { fromSq := ⟨1, 3⟩, toSq := ⟨0, 4⟩, promotion := none, castle := none, enPassant := false })
      (legalMovesForSquare c3CexSnap 1 3) = none ∧
    1 < ((legalMovesForSquare c3CexSnap 1 3).filter
        (fun mv => mv.toSq.r = 0 ∧ mv.toSq.c = 4)).length ∧
    makeMove c3CexSnap ⟨1, 3⟩ ⟨0, 4⟩ none = some c3CexAfter ∧
    (c3CexAfter.history.map fun mr => (mr.promotion, mr.enPassant)) = [(none, true)] :=
  ⟨rfl, rfl, by decide, by decide, rfl, rfl⟩

/-- Snapshot with a white pawn one step from promotion on e7, used to
witness the fallback's promotion handling. -/
def c3Snap : Snapshot :=
  { board :=
      [[some ⟨.b, .k⟩, none, none, none, none, none, none, none],
       [none, none, none, none, some ⟨.w, .p⟩, none, none, none],
       emptyRow, emptyRow, emptyRow, emptyRow, emptyRow,
       [none, none, none, none, some ⟨.w, .k⟩, none, none, none]]
    turn := .w
    status := .playing
    winner := none
    resultReason := none
    history := []
    last := none
    castling := ⟨false, false, false, false⟩
    enPassant := none
    halfmoveClock := 0
    fullmoveNumber := 1
    positionKeys := [] }

/-- Snapshot with the white king and kingside rook at home and the kingside
right set, used to witness the unique-candidate fallback (a castling
submission never matches exactly, since the request carries no castle flag). -/
def c3CastleSnap : Snapshot :=
  { board :=
      [[some ⟨.b, .k⟩, none, none, none, none, none, none, none],
       emptyRow, emptyRow, emptyRow, emptyRow, emptyRow, emptyRow,
       [none, none, none, none, some ⟨.w, .k⟩, none, none, some ⟨.w, .r⟩]]
    turn := .w
    status := .playing
    winner := none
    resultReason := none
    history := []
    last := none
    castling := ⟨true, false, false, false⟩
    enPassant := none
    halfmoveClock := 0
    fullmoveNumber := 1
    positionKeys := [] }

/-- Witness for the amended C3: four promotion candidates with no promotion
supplied are rejected; a castling submission is accepted through the unique
destination-matching fallback; the promotionless en-passant candidate among
five destination-matching candidates is accepted; a supplied promotion with
no matching candidate is rejected. -/
theorem c3_fallback_promotion_handling_witness :
    (1 < ((legalMovesForSquare c3Snap 1 4).filter
        (fun mv => mv.toSq.r = 0 ∧ mv.toSq.c = 4)).length ∧
      makeMove c3Snap ⟨1, 4⟩ ⟨0, 4⟩ none = none) ∧
    (∃ s', makeMove c3CastleSnap ⟨7, 4⟩ ⟨7, 6⟩ none = some s') ∧
    (∃ s', makeMove c3CexSnap ⟨1, 3⟩ ⟨0, 4⟩ none = some s') ∧
    makeMove c3CastleSnap ⟨7, 4⟩ ⟨7, 6⟩ (some .q) = none :=
  ⟨⟨by decide,
      c3_fallback_promotion_handling.2.1 c3Snap ⟨1, 4⟩ ⟨0, 4⟩ ⟨.w, .p⟩ rfl (by decide) rfl
        (by decide) (by decide) (by decide)⟩,
    c3_fallback_promotion_handling.1 c3CastleSnap ⟨7, 4⟩ ⟨7, 6⟩ ⟨.w, .k⟩ rfl (by decide) rfl
      (by decide) { fromSq := ⟨7, 4⟩, toSq := ⟨7, 6⟩, castle := some .k } (by decide),
    c3_fallback_promotion_handling.2.2.1 c3CexSnap ⟨1, 3⟩ ⟨0, 4⟩ ⟨.w, .p⟩ rfl (by decide) rfl
      (by decide) (by decide)
      { fromSq := ⟨1, 3⟩, toSq := ⟨0, 4⟩, enPassant := true } (by decide),
    c3_fallback_promotion_handling.2.2.2.2 c3CastleSnap ⟨7, 4⟩ ⟨7, 6⟩ .q ⟨.w, .k⟩ rfl (by decide)
      rfl (by decide) (by decide)⟩

/-- C7: in the initial snapshot, the legal moves of the white side summed
over all white-occupied squares via legalMovesForSquare number exactly 20. -/
theorem c7_opening_count : whiteLegalMoveTotal createInitialSnapshot = 20 := by decide

theorem setDedup_nodup_aux (l : List String) :
    ∀ seen, (setDedup l seen).Nodup ∧ ∀ x ∈ setDedup l seen, x ∉ seen := by
  induction l with
  | nil =>
    intro seen
    exact ⟨List.nodup_nil, by intro x hx; simp [setDedup] at hx⟩
  | cons x xs ih =>
    intro seen
    unfold setDedup
    by_cases hx : x ∈ seen
    · rw [if_pos hx]
      exact ih seen
    · rw [if_neg hx]
      obtain ⟨hnd, hnotin⟩ := ih (x :: seen)
      constructor
      · refine List.nodup_cons.mpr ⟨?_, hnd⟩
        intro hmem
        exact hnotin x hmem (List.mem_cons_self _ _)
      · intro y hy
        rcases List.mem_cons.mp hy with h1 | h1
        · subst h1
          exact hx
        · intro hseen
          exact hnotin y h1 (List.mem_cons_of_mem _ hseen)

/-- C9: the list returned by legalTargetSquares contains no duplicate square
names; in particular the four promotion variants of a pawn move to one
destination contribute a single name. -/
theorem c9_no_duplicate_target_squares (s : Snapshot) (r c : Int) :
    (legalTargetSquares s r c).Nodup :=
  (setDedup_nodup_aux _ []).1

/-- Injection of an encoded cell into a JavaScript value (null for an empty
cell, the two-character code string otherwise). -/
def cellToJVal (c : Option String) : JVal :=
  match c with
  | none => .null
  | some s => .str s

/-- Injection of an encoded grid into a JavaScript value: an array of arrays
of cells, the storage shape consumed by decodeBoard. -/
def gridToJVal (g : List (List (Option String))) : JVal :=
  .arr (g.map fun row => .arr (row.map cellToJVal))

/-- Structural validity of one stored cell: null/undefined or a recognized
two-character color+type code. -/
def validCell (v : JVal) : Bool :=
  match v with
  | .null => true
  | .str s => (parsePieceCode s).isSome
  | _ => false

/-- Structural validity of one stored row: an array of exactly 8 valid cells. -/
def validRow (v : JVal) : Bool :=
  match v with
  | .arr cells => decide (cells.length = 8) && cells.all validCell
  | _ => false

/-- Structural validity of a stored grid: an array of exactly 8 valid rows. -/
def validGrid (v : JVal) : Bool :=
  match v with
  | .arr rows => decide (rows.length = 8) && rows.all validRow
  | _ => false

theorem decodeCell_cellToJVal (p : Option Piece) : decodeCell (cellToJVal (code p)) = some p := by
  cases p with
  | none => rfl
  | some q =>
    obtain ⟨qc, qt⟩ := q
    cases qc <;> cases qt <;> rfl

theorem decodeCells_map (row : List (Option Piece)) :
    decodeCells (row.map fun p => cellToJVal (code p)) = some row := by
  induction row with
  | nil => rfl
  | cons p ps ih =>
    simp only [List.map_cons, decodeCells]
    rw [decodeCell_cellToJVal, ih]

theorem decodeRows_map (b : Board) (hrows : ∀ row ∈ b, row.length = 8) :
    decodeRows (b.map fun row => JVal.arr (row.map fun p => cellToJVal (code p))) = some b := by
  induction b with
  | nil => rfl
  | cons row rest ih =>
    simp only [List.map_cons, decodeRows]
    have hrow : decodeRow (.arr (row.map fun p => cellToJVal (code p))) = some row := by
      simp only [decodeRow]
      rw [List.length_map, if_pos (hrows row (List.mem_cons_self _ _))]
      exact decodeCells_map row
    rw [hrow, ih fun r hr => hrows r (List.mem_cons_of_mem _ hr)]

theorem validCell_false_decodeCell (v : JVal) (h : validCell v = false) : decodeCell v = none := by
  cases v with
  | null => exact Bool.noConfusion h
  | str s =>
    simp only [validCell] at h
    simp only [decodeCell]
    cases hp : parsePieceCode s with
    | none => rfl
    | some pc => rw [hp] at h; exact Bool.noConfusion h
  | bool b => rfl
  | num n => rfl
  | arr xs => rfl
  | obj fs => rfl

theorem validCells_false_decodeCells (cells : List JVal) (h : cells.all validCell = false) :
    decodeCells cells = none := by
  induction cells with
  | nil => exact Bool.noConfusion h
  | cons c cs ih =>
    rw [List.all_cons] at h
    simp only [decodeCells]
    cases hc : validCell c with
    | false => rw [validCell_false_decodeCell c hc]
    | true =>
      rw [hc] at h
      simp only [Bool.true_and] at h
      cases hdc : decodeCell c with
      | none => rfl
      | some cell => rw [ih h]

theorem validRow_false_decodeRow (v : JVal) (h : validRow v = false) : decodeRow v = none := by
  cases v with
  | arr cells =>
    simp only [validRow] at h
    simp only [decodeRow]
    by_cases hlen : cells.length = 8
    · rw [if_pos hlen]
      rw [decide_eq_true hlen, Bool.true_and] at h
      exact validCells_false_decodeCells cells h
    · rw [if_neg hlen]
  | null => rfl
  | bool b => rfl
  | num n => rfl
  | str s => rfl
  | obj fs => rfl

theorem validRows_false_decodeRows (rows : List JVal) (h : rows.all validRow = false) :
    decodeRows rows = none := by
  induction rows with
  | nil => exact Bool.noConfusion h
  | cons r rs ih =>
    rw [List.all_cons] at h
    simp only [decodeRows]
    cases hr : validRow r with
    | false => rw [validRow_false_decodeRow r hr]
    | true =>
      rw [hr] at h
      simp only [Bool.true_and] at h
      cases hdr : decodeRow r with
      | none => rfl
      | some row => rw [ih h]

/-- C8: decoding the encoding of any 8 by 8 board reproduces it exactly, and
decoding any value that is not an 8 by 8 array of valid optional cell codes
yields the standard initial board wholesale. -/
theorem c8_board_roundtrip_and_fallback :
    (∀ b : Board, b.length = 8 → (∀ row ∈ b, row.length = 8) →
      decodeBoard (gridToJVal (encodeBoard b)) = b) ∧
    (∀ v : JVal, validGrid v = false → decodeBoard v = initialBoard) := by
  constructor
  · intro b hlen hrows
    have harg : gridToJVal (encodeBoard b) =
        .arr (b.map fun row => JVal.arr (row.map fun p => cellToJVal (code p))) := by
      unfold gridToJVal encodeBoard
      simp only [List.map_map, Function.comp_def]
    rw [harg]
    simp only [decodeBoard]
    rw [List.length_map, if_pos hlen, decodeRows_map b hrows]
  · intro v hv
    cases v with
    | arr rows =>
      simp only [validGrid] at hv
      simp only [decodeBoard]
      by_cases hlen : rows.length = 8
      · rw [if_pos hlen]
        rw [decide_eq_true hlen, Bool.true_and] at hv
        rw [validRows_false_decodeRows rows hv]
      · rw [if_neg hlen]
    | null => rfl
    | bool b => rfl
    | num n => rfl
    | str s => rfl
    | obj fs => rfl

/-- Witness for C8: the initial board round-trips, and a null value decodes
to the initial board. -/
theorem c8_board_roundtrip_and_fallback_witness :
    (initialBoard.length = 8 ∧ (∀ row ∈ initialBoard, row.length = 8) ∧
      decodeBoard (gridToJVal (encodeBoard initialBoard)) = initialBoard) ∧
    (validGrid .null = false ∧ decodeBoard .null = initialBoard) :=
  ⟨⟨rfl, by decide,
      c8_board_roundtrip_and_fallback.1 initialBoard rfl (by decide)⟩,
    ⟨rfl, c8_board_roundtrip_and_fallback.2 .null rfl⟩⟩

/-- C10: for every input to snapshotFromRemoteParts the reconstructed
halfmove clock is the stored finite number truncated toward zero and clamped
to at least 0 (0 when the field is missing, non-numeric or non-finite), the
fullmove number is likewise truncated and clamped to at least 1 (1 as the
fallback), and hence the clock is non-negative and the fullmove number at
least 1; integrality is by construction, the values being integers. -/
theorem c10_remote_clock_clamping (boardRaw turn status winner history lastMove stateRaw : JVal) :
    (snapshotFromRemoteParts boardRaw turn status winner history lastMove stateRaw).halfmoveClock =
      (match lookupField stateRaw "halfmove_clock" with
       | some (.num (.finite q)) => max 0 (jsTrunc q)
       | _ => 0) ∧
    (snapshotFromRemoteParts boardRaw turn status winner history lastMove stateRaw).fullmoveNumber =
      (match lookupField stateRaw "fullmove_number" with
       | some (.num (.finite q)) => max 1 (jsTrunc q)
       | _ => 1) ∧
    0 ≤ (snapshotFromRemoteParts boardRaw turn status winner history lastMove stateRaw).halfmoveClock ∧
    1 ≤ (snapshotFromRemoteParts boardRaw turn status winner history lastMove stateRaw).fullmoveNumber := by
  refine ⟨rfl, rfl, ?_, ?_⟩
  · show (0 : Int) ≤
      (match lookupField stateRaw "halfmove_clock" with
       | some (.num (.finite q)) => max 0 (jsTrunc q)
       | _ => 0)
    cases lookupField stateRaw "halfmove_clock" with
    | none => exact le_refl 0
    | some v =>
      cases v with
      | num n =>
        cases n with
        | finite q => exact le_max_left 0 (jsTrunc q)
        | nan => exact le_refl 0
        | inf => exact le_refl 0
        | neginf => exact le_refl 0
      | null => exact le_refl 0
      | bool b => exact le_refl 0
      | str s => exact le_refl 0
      | arr xs => exact le_refl 0
      | obj fs => exact le_refl 0
  · show (1 : Int) ≤
      (match lookupField stateRaw "fullmove_number" with
       | some (.num (.finite q)) => max 1 (jsTrunc q)
       | _ => 1)
    cases lookupField stateRaw "fullmove_number" with
    | none => exact le_refl 1
    | some v =>
      cases v with
      | num n =>
        cases n with
        | finite q => exact le_max_left 1 (jsTrunc q)
        | nan => exact le_refl 1
        | inf => exact le_refl 1
        | neginf => exact le_refl 1
      | null => exact le_refl 1
      | bool b => exact le_refl 1
      | str s => exact le_refl 1
      | arr xs => exact le_refl 1
      | obj fs => exact le_refl 1
